import Mathlib

/-!
Verification of the VectorDBFAISS repository (src/server.js, src/serverArray.js,
src/embed.js, src/embedArray.js) against its natural-language specification.

Modelling conventions:
* JavaScript numbers are modelled as real numbers (`ℝ`); the one place where the
  float-specific value `NaN` is reachable in the modelled code — `0/0` in the
  unguarded cosine similarity of `FAISS.search` (server.js lines 44-49) — is made
  explicit by giving that similarity the type `Option ℝ`, with `none` standing
  for `NaN`.  A zero denominator `magnitudeA * magnitudeB` forces a zero
  numerator (a vector of zero Euclidean norm is the zero vector), so `0/0 = NaN`
  is the only division-by-zero case that can occur there.
* `Array.prototype.sort` is required by ECMAScript to be stable; for a
  consistent comparator every stable sort produces the same output, so the sort
  is modelled by a stable insertion sort `jsSortBy`.  The comparator
  `(a, b) => b.score - a.score` orders `a` before `b` exactly when
  `b.score ≤ a.score`; when a score is `NaN` the comparator returns `NaN`,
  which the ECMAScript sort treats as `0` (elements compare as equal).
* `Array.prototype.slice(0, k)` with a negative `k` counts from the end of the
  array: it keeps the first `max(length + k, 0)` elements (`jsSlice`).
* The BLOB column of the store (server.js lines 92-93: `Buffer.from(new
  Float32Array(vector).buffer)`, read back at lines 71-74 by
  `Array.from(new Float32Array(row.vector.buffer))`) is in bijection with the
  list of float32 values it encodes, so a stored blob is modelled by the list of
  numbers it decodes to, and serialization is modelled (in the separate exact
  `ℚ` development for the round-trip claim) as componentwise rounding of a
  float64 value to the nearest float32, ties to even — the ECMAScript
  `ToFloat32` conversion.  Values beyond the finite float32 range (absolute
  value at least `2^128`) would overflow to `Infinity` and are outside the scope
  of that model; embedding coordinates are far inside the range.
* The external OpenAI calls (`getEmbeddings`, `getAnswer`) are parameters: an
  embedding provider is a function `String → Option (List ℝ)` (`none` models a
  provider failure, i.e. a rejected promise) and an answer provider is an
  `Option String`.
-/

/-- Models `Array.prototype.slice(0, k)` (server.js line 58: `.slice(0, k)`).
For `k ≥ 0` it keeps the first `min(k, length)` elements; for `k < 0` the end
index counts from the end of the array, keeping the first `max(length + k, 0)`
elements. -/
def jsSlice {α : Type} (k : Int) (l : List α) : List α :=
  l.take (if k < 0 then ((l.length : Int) + k).toNat else k.toNat)

/-- One insertion step of a stable descending insertion sort: `x` is placed
before the first element `y` with `le x y` (for the JS comparator this means
the score of `x` is at least that of `y`, or the comparison involved `NaN`).  Elements
already in the list that tie with `x` end up after `x`, which is what stability
gives the element that occurred earlier in the original array. -/
def insertLE {α : Type} (le : α → α → Bool) (x : α) : List α → List α
  | [] => [x]
  | y :: ys => if le x y then x :: y :: ys else y :: insertLE le x ys

/-- Stable sort modelling `Array.prototype.sort(cmp)` for a comparator `cmp`
with `le a b ↔ cmp(a, b) ≤ 0` (ECMAScript sorts are stable, and all stable
sorts agree for a consistent comparator). -/
def jsSortBy {α : Type} (le : α → α → Bool) : List α → List α
  | [] => []
  | x :: xs => insertLE le x (jsSortBy le xs)

/-- Models `vecA.reduce((sum, val, i) => sum + val * vecB[i], 0)` (server.js line 45)
for vectors of equal length (the deployment-wide dimension `D`). -/
def dotProduct (vecA vecB : List ℝ) : ℝ :=
  (List.zipWith (· * ·) vecA vecB).sum

/-- Models `vec.reduce((sum, val) => sum + val ** 2, 0)` (server.js lines 46-47). -/
def sumSq (vec : List ℝ) : ℝ :=
  (vec.map fun x => x ^ 2).sum

/-- Models `Math.sqrt(vec.reduce((sum, val) => sum + val ** 2, 0))`
(server.js lines 46-47): the Euclidean magnitude. -/
noncomputable def magnitude (vec : List ℝ) : ℝ :=
  Real.sqrt (sumSq vec)

/-- The unguarded cosine similarity inside `FAISS.search` (server.js lines
44-49): `dotProduct / (magnitudeA * magnitudeB)` with no zero check.  When the
denominator is zero the numerator is also zero (a zero-magnitude real vector is
the zero vector), and in JavaScript `0/0` is `NaN`, modelled as `none`. -/
noncomputable def cosineSimilarity (vecA vecB : List ℝ) : Option ℝ :=
  if magnitude vecA * magnitude vecB = 0 then none
  else some (dotProduct vecA vecB / (magnitude vecA * magnitude vecB))

/-- The guarded cosine similarity inlined in the `/search` endpoint
(server.js lines 202-207): `magnitudeA && magnitudeB ? dot / (mA * mB) : 0`.
A magnitude is falsy exactly when it is `0`. -/
noncomputable def cosineSimilarityGuarded (vecA vecB : List ℝ) : ℝ :=
  if magnitude vecA = 0 ∨ magnitude vecB = 0 then 0
  else dotProduct vecA vecB / (magnitude vecA * magnitude vecB)

/-- An entry `{ vector, docId }` of the in-memory `FAISS.index`
(server.js line 39). -/
structure IndexEntry where
  vector : List ℝ
  docId : Nat

/-- A `{ docId, score }` pair produced by `FAISS.search` (server.js lines
51-54); `score = none` models `NaN`. -/
structure SearchResult where
  docId : Nat
  score : Option ℝ

/-- The real value of a (non-`NaN`) score, used to state the ranking order;
under the no-`NaN` hypotheses of the ranking theorem every score is `some`. -/
def scoreVal (r : SearchResult) : ℝ :=
  r.score.getD 0

/-- Models `FAISS.add` (server.js lines 38-41): pushes `{ vector, docId }` onto the
index. -/
def FAISS.add (index : List IndexEntry) (vector : List ℝ) (docId : Nat) :
    List IndexEntry :=
  index ++ [{ vector := vector, docId := docId }]

/-- The sort comparator `(a, b) => b.score - a.score` (server.js line 57) as an
order test: `a` may precede `b` iff the comparator is `≤ 0`, i.e.
`b.score ≤ a.score`; when either score is `NaN` the comparator returns `NaN`,
which the ECMAScript sort treats as `0`, so the elements compare as equal. -/
noncomputable def resultLE (a b : SearchResult) : Bool :=
  match a.score, b.score with
  | some x, some y => decide (y ≤ x)
  | _, _ => true

/-- Models `FAISS.search` (server.js lines 43-59): an empty index returns `[]`;
otherwise score every entry against the query, sort by descending score with
the stable comparator and take `slice(0, k)`. -/
noncomputable def FAISS.search (index : List IndexEntry) (queryVector : List ℝ)
    (k : Int) : List SearchResult :=
  if index.length = 0 then []
  else
    jsSlice k (jsSortBy resultLE (index.map fun item =>
      { docId := item.docId, score := cosineSimilarity queryVector item.vector }))

/-- The ranking order claimed by the spec for search output: strictly
descending score, ties broken by ascending id. -/
def rankLT {α : Type} (sc : α → ℝ) (key : α → Nat) (a b : α) : Prop :=
  sc b < sc a ∨ (sc a = sc b ∧ key a < key b)

/-- A row of the `documents` table (server.js lines 24-30):
auto-incremented `id`, `UNIQUE` `content`, and the vector `BLOB`, identified
with the list of float values the blob decodes to. -/
structure DocRow where
  id : Nat
  content : String
  vector : List ℝ

/-- Models `synchronizeFAISS` (server.js lines 63-79): reads all store rows and calls
`FAISS.add(vector, row.id)` for each, in store order, appending to the existing
in-memory index.  Nothing in the function clears `FAISS.index` first. -/
def synchronizeFAISS (store : List DocRow) (faiss : List IndexEntry) :
    List IndexEntry :=
  store.foldl (fun idx row => FAISS.add idx row.vector row.id) faiss

/-- The mutable server state: the SQLite `documents` table, the in-memory
`FAISS.index`, and the next `AUTOINCREMENT` id. -/
structure ServerState where
  store : List DocRow
  faiss : List IndexEntry
  nextId : Nat

/-- The response of `POST /add` (server.js lines 87-112): 400 when content is
missing or empty (falsy), 500 on an error, `Document already exists.` when the
`INSERT OR IGNORE` changed nothing, else `Document added.` with the fresh id. -/
inductive AddOutcome where
  | badRequest
  | serverError
  | alreadyExists
  | added (docId : Nat)
deriving DecidableEq

/-- Models `POST /add` (server.js lines 87-112).  `embed` models `getEmbeddings`
(`none` = rejected promise, caught at line 109 → 500); `ser` models the
`Float32Array` serialization applied to the vector before storage (line 93) —
note the value pushed to `FAISS.add` at line 102 is the unserialized `vector`.
`INSERT OR IGNORE` inserts only when no row has the same `content`
(the `UNIQUE` constraint); `this.changes > 0` distinguishes the two cases. -/
def addEndpoint (embed : String → Option (List ℝ)) (ser : List ℝ → List ℝ)
    (s : ServerState) (content : String) : AddOutcome × ServerState :=
  if content = "" then (.badRequest, s)
  else
    match embed content with
    | none => (.serverError, s)
    | some vector =>
      if s.store.any fun r => r.content == content then (.alreadyExists, s)
      else
        (.added s.nextId,
          { store := s.store ++
              [{ id := s.nextId, content := content, vector := ser vector }],
            faiss := FAISS.add s.faiss vector s.nextId,
            nextId := s.nextId + 1 })

/-- Record `{ docId, content, score }` pushed by the row scan of the `/search`
endpoint (server.js line 210). -/
structure ScoredDoc where
  docId : Nat
  content : String
  score : ℝ

/-- Sort comparator of the `/search` endpoint, `(a, b) => b.score - a.score`
(server.js line 214); these scores come from the guarded similarity and are
never `NaN`. -/
noncomputable def scoredLE (a b : ScoredDoc) : Bool :=
  decide (b.score ≤ a.score)

/-- The ranked results of `POST /search` (server.js lines 194-214): read every
row of `documents`, score each stored vector against the query with the guarded
cosine similarity, sort by descending score and take `slice(0, k)`.  The
in-memory FAISS index is never consulted: only `s.store` is read. -/
noncomputable def searchEndpointResults (s : ServerState) (queryVector : List ℝ)
    (k : Int) : List ScoredDoc :=
  jsSlice k (jsSortBy scoredLE (s.store.map fun row =>
    { docId := row.id, content := row.content,
      score := cosineSimilarityGuarded queryVector row.vector }))

/-- The GPT prompt built by `/search` (server.js lines 217-219):
`Query: ...\nDocuments:\n` followed by 1-based numbered content lines. -/
def mkSearchPrompt (query : String) (top : List ScoredDoc) : String :=
  "Query: " ++ query ++ "\nDocuments:\n" ++
    String.intercalate "\n"
      (top.enum.map fun p => toString (p.1 + 1) ++ ". " ++ p.2.content)

/-- The prompt template of `getAnswer` in embed.js (line 161). -/
def Embed.answerPrompt (context question : String) : String :=
  "Answer the question based on the context below. If the question cannot be answered based on the context, make a reasonable guess.\n Context: "
    ++ context ++ "\nQuestion: " ++ question ++ "\nAnswer:"

/-- Models `getAnswer` of embed.js (lines 160-180).  A prompt longer than 10000
characters throws (uncaught, so the promise rejects: `.error`).  Otherwise the
OpenAI call result is returned — but the `catch` block at lines 177-179 only
logs the provider error and does not rethrow, so on provider failure the
function resolves with `undefined` (`.ok none`), not an error. -/
def Embed.getAnswer (context question : String) (provider : Option String) :
    Except String (Option String) :=
  if (Embed.answerPrompt context question).length > 10000 then
    .error "Prompt is too long"
  else .ok provider

/-- The prompt template of `getAnswer` in embedArray.js (line 128). -/
def EmbedArray.answerPrompt (context question : String) : String :=
  "Answer the question based on the context below. If the question cannot be answered based on the context, make a reasonable guess.\nContext: "
    ++ context ++ "\nQuestion: " ++ question ++ "\nAnswer:"

/-- Models `getAnswer` of embedArray.js (lines 127-144): same shape, but the `catch`
block rethrows (`throw new Error("Error generating answer from OpenAI")`), so a
provider failure surfaces as an error. -/
def EmbedArray.getAnswer (context question : String) (provider : Option String) :
    Except String String :=
  if (EmbedArray.answerPrompt context question).length > 10000 then
    .error "Prompt is too long"
  else
    match provider with
    | some answer => .ok answer
    | none => .error "Error generating answer from OpenAI"

/-- The observable outcome of `POST /search` (server.js lines 186-229).
`noResponse`: when the `getAnswer` promise rejects, the `.then` at line 222 has
no rejection handler, so no HTTP response is ever sent. -/
inductive SearchOutcome where
  | badRequest
  | serverError
  | noResponse
  | ok (prompt : String) (results : List ScoredDoc) (answer : Option String)

/-- Models `POST /search` (server.js lines 186-229): reject an empty (falsy) query
with 400; embed the query (failure caught → 500); scan and score every store
row, rank, build the prompt, and call `getAnswer(prompt)` — with the `question`
argument omitted, so JavaScript interpolates the string `"undefined"` into the
inner prompt template.  On `getAnswer` resolving (even with `undefined`), the
endpoint responds 200 with `{ prompt, results, answer }`. -/
noncomputable def searchEndpoint (s : ServerState)
    (embed : String → Option (List ℝ)) (provider : Option String)
    (query : String) (k : Int) : SearchOutcome :=
  if query = "" then .badRequest
  else
    match embed query with
    | none => .serverError
    | some queryVector =>
      let topResults := searchEndpointResults s queryVector k
      let prompt := mkSearchPrompt query topResults
      match Embed.getAnswer prompt "undefined" provider with
      | .error _ => .noResponse
      | .ok answer => .ok prompt topResults answer

/-- Round a rational to the nearest integer, ties to even — the rounding used
by IEEE-754 (and hence by the ECMAScript `ToFloat32` conversion applied by
`new Float32Array(vector)`, server.js line 93). -/
def rne (q : ℚ) : ℤ :=
  if q - ⌊q⌋ < 1 / 2 then ⌊q⌋
  else if 1 / 2 < q - ⌊q⌋ then ⌊q⌋ + 1
  else if 2 ∣ ⌊q⌋ then ⌊q⌋ else ⌊q⌋ + 1

/-- The exponent of the float32 quantum at `q`: a float32 value with
`2^e ≤ |q| < 2^(e+1)` has an ulp of `2^(e-23)`, with the exponent clamped below
at `-126` (subnormal range, quantum `2^(-149)`). -/
def fexp (q : ℚ) : ℤ :=
  max (Int.log 2 |q|) (-126) - 23

/-- Rounding a float64 value (an exact rational) to the nearest float32, ties
to even: the effect of storing one vector component through
`new Float32Array(vector)` (server.js line 93).  Finite range only: values with
`|q| ≥ 2^128` would overflow to `Infinity` and are outside the scope of this model
(embedding coordinates are far inside the finite range). -/
def round32 (q : ℚ) : ℚ :=
  if q = 0 then 0 else (rne (q / 2 ^ fexp q) : ℚ) * 2 ^ fexp q

/-- Models `Buffer.from(new Float32Array(vector).buffer)` (server.js line 93): the
stored blob, identified with the float32 values its bytes encode (the
little-endian byte layout is a bijection on float32 values). -/
def serializeVector (v : List ℚ) : List ℚ :=
  v.map round32

/-- Models `Array.from(new Float32Array(row.vector.buffer))` (server.js line 72): the
bytes decode exactly to the float32 values they encode. -/
def deserializeVector (blob : List ℚ) : List ℚ :=
  blob

/-- Vector → bytes → vector, as `/add` followed by `synchronizeFAISS` does. -/
def storeRoundTrip (v : List ℚ) : List ℚ :=
  deserializeVector (serializeVector v)

/-- Predicate: `q` is exactly representable as a finite float32: zero, or `m * 2^e` with a
24-bit significand and an exponent in the finite float32 range. -/
def Float32Rep (q : ℚ) : Prop :=
  q = 0 ∨ ∃ m e : ℤ, |m| < 2 ^ 24 ∧ -149 ≤ e ∧ e ≤ 104 ∧ q = (m : ℚ) * 2 ^ e

theorem insertLE_length {α : Type} (le : α → α → Bool) (x : α) (l : List α) :
    (insertLE le x l).length = l.length + 1 := by
  induction l with
  | nil => rfl
  | cons y ys ih => by_cases h : le x y <;> simp [insertLE, h, ih]

theorem jsSortBy_length {α : Type} (le : α → α → Bool) (l : List α) :
    (jsSortBy le l).length = l.length := by
  induction l with
  | nil => rfl
  | cons x xs ih => simp [jsSortBy, insertLE_length, ih]

theorem insertLE_perm {α : Type} (le : α → α → Bool) (x : α) (l : List α) :
    (insertLE le x l).Perm (x :: l) := by
  induction l with
  | nil => exact List.Perm.refl _
  | cons y ys ih =>
    by_cases h : le x y
    · simp [insertLE, h]
    · simp only [insertLE, h, if_false, Bool.false_eq_true, ite_false]
      exact (ih.cons y).trans (List.Perm.swap x y ys)

theorem jsSortBy_perm {α : Type} (le : α → α → Bool) (l : List α) :
    (jsSortBy le l).Perm l := by
  induction l with
  | nil => exact List.Perm.refl _
  | cons x xs ih => exact (insertLE_perm le x (jsSortBy le xs)).trans (ih.cons x)

theorem insertLE_congr {α : Type} {le le' : α → α → Bool} {x : α} {l : List α}
    (h : ∀ b ∈ l, le x b = le' x b) : insertLE le x l = insertLE le' x l := by
  induction l with
  | nil => rfl
  | cons y ys ih =>
    simp only [insertLE]
    rw [← h y (List.mem_cons_self y ys)]
    by_cases hxy : le x y
    · simp [hxy]
    · simp [hxy, ih fun b hb => h b (List.mem_cons_of_mem y hb)]

theorem jsSortBy_congr {α : Type} {le le' : α → α → Bool} {l : List α}
    (h : ∀ a ∈ l, ∀ b ∈ l, le a b = le' a b) : jsSortBy le l = jsSortBy le' l := by
  induction l with
  | nil => rfl
  | cons x xs ih =>
    have htail : jsSortBy le xs = jsSortBy le' xs :=
      ih fun a ha b hb => h a (List.mem_cons_of_mem x ha) b (List.mem_cons_of_mem x hb)
    simp only [jsSortBy]
    rw [htail]
    exact insertLE_congr fun b hb =>
      h x (List.mem_cons_self x xs) b
        (List.mem_cons_of_mem x ((jsSortBy_perm le' xs).mem_iff.mp hb))

theorem insertLE_lex {α : Type} (sc : α → ℝ) (key : α → Nat) (x : α) (s : List α)
    (hs : s.Pairwise (rankLT sc key)) (hx : ∀ z ∈ s, key x < key z) :
    (insertLE (fun a b => decide (sc b ≤ sc a)) x s).Pairwise (rankLT sc key) := by
  induction s with
  | nil => simp [insertLE, rankLT]
  | cons y ys ih =>
    rw [List.pairwise_cons] at hs
    by_cases hxy : sc y ≤ sc x
    · simp only [insertLE, if_pos (decide_eq_true hxy)]
      rw [List.pairwise_cons]
      refine ⟨fun z hz => ?_, List.pairwise_cons.mpr hs⟩
      rcases List.mem_cons.mp hz with hz | hz
      · subst hz
        rcases lt_or_eq_of_le hxy with hlt | heq
        · exact Or.inl hlt
        · exact Or.inr ⟨heq.symm, hx z (List.mem_cons_self z ys)⟩
      · have hyz := hs.1 z hz
        have hzy : sc z ≤ sc y := by
          rcases hyz with hlt | ⟨heq, _⟩
          · exact le_of_lt hlt
          · exact le_of_eq heq.symm
        rcases lt_or_eq_of_le (le_trans hzy hxy) with hlt | heq
        · exact Or.inl hlt
        · exact Or.inr ⟨heq.symm, hx z (List.mem_cons_of_mem y hz)⟩
    · have hd : (decide (sc y ≤ sc x)) = false := decide_eq_false hxy
      simp only [insertLE, hd, Bool.false_eq_true, if_false]
      rw [List.pairwise_cons]
      refine ⟨fun z hz => ?_, ih hs.2 fun z hz => hx z (List.mem_cons_of_mem y hz)⟩
      rcases List.mem_cons.mp ((insertLE_perm _ x ys).mem_iff.mp hz) with hz | hz
      · subst hz
        exact Or.inl (not_le.mp hxy)
      · exact hs.1 z hz

theorem jsSortBy_lex {α : Type} (sc : α → ℝ) (key : α → Nat) (l : List α)
    (hl : l.Pairwise fun a b => key a < key b) :
    (jsSortBy (fun a b => decide (sc b ≤ sc a)) l).Pairwise (rankLT sc key) := by
  induction l with
  | nil => simp [jsSortBy]
  | cons x xs ih =>
    rw [List.pairwise_cons] at hl
    simp only [jsSortBy]
    exact insertLE_lex sc key x _ (ih hl.2)
      fun z hz => hl.1 z ((jsSortBy_perm _ xs).mem_iff.mp hz)

theorem jsSlice_sublist {α : Type} (k : Int) (l : List α) :
    (jsSlice k l).Sublist l :=
  List.take_sublist _ _

theorem jsSlice_of_le {α : Type} {k : Int} {l : List α}
    (hk : (l.length : Int) ≤ k) : jsSlice k l = l := by
  unfold jsSlice
  rw [if_neg (by omega)]
  exact List.take_of_length_le (by omega)

theorem jsSlice_jsSortBy_perm {α : Type} (le : α → α → Bool) (l : List α)
    (k : Int) (hk : (l.length : Int) ≤ k) :
    (jsSlice k (jsSortBy le l)).Perm l := by
  rw [jsSlice_of_le (by rw [jsSortBy_length]; exact hk)]
  exact jsSortBy_perm le l

theorem synchronizeFAISS_eq (store : List DocRow) (faiss : List IndexEntry) :
    synchronizeFAISS store faiss =
      faiss ++ store.map fun row => { vector := row.vector, docId := row.id } := by
  induction store generalizing faiss with
  | nil => simp [synchronizeFAISS]
  | cons r rs ih =>
    show synchronizeFAISS rs (FAISS.add faiss r.vector r.id) = _
    rw [ih]
    simp [FAISS.add]

theorem search_length (idx : List IndexEntry) (q : List ℝ) (k : Int) :
    (FAISS.search idx q k).length =
      if idx.length = 0 then 0
      else min (if k < 0 then ((idx.length : Int) + k).toNat else k.toNat)
        idx.length := by
  by_cases h : idx.length = 0
  · simp [FAISS.search, h]
  · simp only [FAISS.search, if_neg h]
    simp only [jsSlice, List.length_take, jsSortBy_length, List.length_map]

theorem search_perm_of_le (idx : List IndexEntry) (q : List ℝ) (k : Int)
    (hk : (idx.length : Int) ≤ k) :
    (FAISS.search idx q k).Perm (idx.map fun e =>
      { docId := e.docId, score := cosineSimilarity q e.vector }) := by
  by_cases h : idx.length = 0
  · rw [List.length_eq_zero.mp h]
    simp [FAISS.search]
  · simp only [FAISS.search, if_neg h]
    exact jsSlice_jsSortBy_perm _ _ _ (by rw [List.length_map]; exact hk)

theorem cosineSimilarity_eq_some {vecA vecB : List ℝ}
    (hA : magnitude vecA ≠ 0) (hB : magnitude vecB ≠ 0) :
    cosineSimilarity vecA vecB =
      some (dotProduct vecA vecB / (magnitude vecA * magnitude vecB)) := by
  rw [cosineSimilarity, if_neg (mul_ne_zero hA hB)]

theorem cosineSimilarity_eq_none {vecA vecB : List ℝ}
    (h : magnitude vecA = 0 ∨ magnitude vecB = 0) :
    cosineSimilarity vecA vecB = none := by
  rcases h with h | h
  · rw [cosineSimilarity, if_pos (by rw [h, zero_mul])]
  · rw [cosineSimilarity, if_pos (by rw [h, mul_zero])]

/-- C1 (amended): for an index whose entries are in ascending-id order (the
only order the system ever builds: `/add` appends fresh `AUTOINCREMENT` ids
and `synchronizeFAISS` appends rows in store order) and in which no score is
`NaN` — the query and every indexed vector have nonzero magnitude —
`FAISS.search` returns results sorted strictly descending by cosine-similarity
score with ties broken by ascending id, and for `k ≥ index size` it returns
all entries.  Without the no-`NaN` condition the ordering fails (see the
counterexample): a `NaN` score compares equal to everything in the JS sort, so
the `NaN`-scored entry stays put and can precede higher-scoring entries. -/
theorem search_ranked_and_complete (idx : List IndexEntry) (q : List ℝ) (k : Int)
    (hids : idx.Pairwise fun a b => a.docId < b.docId)
    (hq : magnitude q ≠ 0)
    (hv : ∀ e ∈ idx, magnitude e.vector ≠ 0) :
    (FAISS.search idx q k).Pairwise (rankLT scoreVal SearchResult.docId)
    ∧ ((idx.length : Int) ≤ k →
      (FAISS.search idx q k).Perm (idx.map fun e =>
        { docId := e.docId, score := cosineSimilarity q e.vector })) := by
  refine ⟨?_, fun hk => search_perm_of_le idx q k hk⟩
  by_cases h : idx.length = 0
  · simp [FAISS.search, h]
  · simp only [FAISS.search, if_neg h]
    set results := idx.map (fun e =>
      ({ docId := e.docId, score := cosineSimilarity q e.vector } : SearchResult))
      with hres
    have hsome : ∀ r ∈ results, ∃ x : ℝ, r.score = some x := by
      intro r hr
      rw [hres] at hr
      obtain ⟨e, he, rfl⟩ := List.mem_map.mp hr
      exact ⟨_, cosineSimilarity_eq_some hq (hv e he)⟩
    have hcongr : jsSortBy resultLE results
        = jsSortBy (fun a b => decide (scoreVal b ≤ scoreVal a)) results := by
      apply jsSortBy_congr
      intro a ha b hb
      obtain ⟨x, hx⟩ := hsome a ha
      obtain ⟨y, hy⟩ := hsome b hb
      simp [resultLE, hx, hy, scoreVal]
    have hkey : results.Pairwise fun a b => a.docId < b.docId :=
      hids.map _ fun a b hab => hab
    rw [hcongr]
    exact (jsSortBy_lex scoreVal SearchResult.docId results hkey).sublist
      (jsSlice_sublist _ _)

/-- Witness for the C1 theorem at a concrete two-entry index, query and k. -/
theorem search_ranked_and_complete_witness :
    (([⟨[1, 0], 1⟩, ⟨[0, 1], 2⟩] : List IndexEntry).Pairwise
      fun a b => a.docId < b.docId)
    ∧ magnitude [1, 0] ≠ 0
    ∧ (∀ e ∈ ([⟨[1, 0], 1⟩, ⟨[0, 1], 2⟩] : List IndexEntry),
        magnitude e.vector ≠ 0)
    ∧ (FAISS.search [⟨[1, 0], 1⟩, ⟨[0, 1], 2⟩] [1, 0] 5).Pairwise
        (rankLT scoreVal SearchResult.docId) := by
  have hm10 : magnitude [1, 0] ≠ 0 := by
    have hs : sumSq [1, 0] = 1 := by norm_num [sumSq]
    rw [magnitude, hs, Real.sqrt_one]
    norm_num
  have hm01 : magnitude [0, 1] ≠ 0 := by
    have hs : sumSq [0, 1] = 1 := by norm_num [sumSq]
    rw [magnitude, hs, Real.sqrt_one]
    norm_num
  have hpw : ([⟨[1, 0], 1⟩, ⟨[0, 1], 2⟩] : List IndexEntry).Pairwise
      (fun a b => a.docId < b.docId) := by
    norm_num [List.pairwise_cons]
  have hv : ∀ e ∈ ([⟨[1, 0], 1⟩, ⟨[0, 1], 2⟩] : List IndexEntry),
      magnitude e.vector ≠ 0 := by
    intro e he
    rcases List.mem_cons.mp he with rfl | he
    · exact hm10
    rcases List.mem_cons.mp he with rfl | he
    · exact hm01
    · simp at he
  exact ⟨hpw, hm10, hv,
    (search_ranked_and_complete _ [1, 0] 5 hpw hm10 hv).1⟩

/-- C1 counterexample: a zero-magnitude stored vector (id 1, in ascending-id
position ahead of id 2) gets the `NaN` score, which the sort comparator treats
as equal to everything, so the entry stays ahead of the entry with score `1`:
the output is not sorted strictly descending by score — the claimed order
fails however the `NaN` score is read (as the spec's `0` it ranks below `1`,
and it is certainly not strictly above it). -/
theorem search_nan_breaks_ranking :
    FAISS.search [⟨[0, 0], 1⟩, ⟨[1, 0], 2⟩] [1, 0] 5
      = [{ docId := 1, score := none }, { docId := 2, score := some 1 }]
    ∧ ¬ (FAISS.search [⟨[0, 0], 1⟩, ⟨[1, 0], 2⟩] [1, 0] 5).Pairwise
        (rankLT scoreVal SearchResult.docId) := by
  have hm00 : magnitude [0, 0] = 0 := by
    have hs : sumSq [0, 0] = 0 := by norm_num [sumSq]
    rw [magnitude, hs, Real.sqrt_zero]
  have hm10 : magnitude [1, 0] = 1 := by
    have hs : sumSq [1, 0] = 1 := by norm_num [sumSq]
    rw [magnitude, hs, Real.sqrt_one]
  have hcos1 : cosineSimilarity [1, 0] [0, 0] = none :=
    cosineSimilarity_eq_none (Or.inr hm00)
  have hcos2 : cosineSimilarity [1, 0] [1, 0] = some 1 := by
    rw [cosineSimilarity_eq_some (by rw [hm10]; norm_num) (by rw [hm10]; norm_num),
      hm10]
    norm_num [dotProduct]
  have heval : FAISS.search [⟨[0, 0], 1⟩, ⟨[1, 0], 2⟩] [1, 0] 5
      = [{ docId := 1, score := none }, { docId := 2, score := some 1 }] := by
    simp [FAISS.search, hcos1, hcos2, jsSortBy, insertLE, resultLE, jsSlice]
  refine ⟨heval, ?_⟩
  rw [heval]
  intro hpw
  have h12 := (List.pairwise_cons.mp hpw).1 _ (List.mem_cons_self _ _)
  rcases h12 with hlt | ⟨heq, _⟩
  · simp [scoreVal] at hlt
    norm_num at hlt
  · simp [scoreVal] at heq

/-- C3 (amended): `synchronizeFAISS` does not clear the in-memory index; it
appends one entry per store row, in store order, to whatever the index already
holds.  From an empty index a single resync loads exactly the stored
(id, vector) pairs; running it twice from empty duplicates every entry. -/
theorem synchronizeFAISS_appends (store : List DocRow) (faiss : List IndexEntry) :
    synchronizeFAISS store faiss =
      faiss ++ (store.map fun row => { vector := row.vector, docId := row.id })
    ∧ synchronizeFAISS store [] =
        store.map (fun row => { vector := row.vector, docId := row.id })
    ∧ synchronizeFAISS store (synchronizeFAISS store []) =
        (store.map fun row => { vector := row.vector, docId := row.id })
          ++ store.map fun row => { vector := row.vector, docId := row.id } := by
  refine ⟨synchronizeFAISS_eq store faiss, ?_, ?_⟩
  · rw [synchronizeFAISS_eq]
    simp
  · rw [synchronizeFAISS_eq, synchronizeFAISS_eq]
    simp

/-- C3 counterexample: with one store row, resyncing twice from an empty index
leaves two copies of the entry, and search output differs from a single fresh
resync already at its length (2 results versus 1 for `k = 2`). -/
theorem resync_twice_search_differs :
    FAISS.search
        (synchronizeFAISS [⟨1, "a", [1, 0]⟩]
          (synchronizeFAISS [⟨1, "a", [1, 0]⟩] [])) [1, 0] 2
      ≠ FAISS.search (synchronizeFAISS [⟨1, "a", [1, 0]⟩] []) [1, 0] 2 := by
  have h1 : synchronizeFAISS [(⟨1, "a", [1, 0]⟩ : DocRow)] [] = [⟨[1, 0], 1⟩] := by
    rw [synchronizeFAISS_eq]
    simp
  have h2 : synchronizeFAISS [(⟨1, "a", [1, 0]⟩ : DocRow)] [⟨[1, 0], 1⟩]
      = [⟨[1, 0], 1⟩, ⟨[1, 0], 1⟩] := by
    rw [synchronizeFAISS_eq]
    simp
  intro hcontra
  rw [h1, h2] at hcontra
  have hlen := congrArg List.length hcontra
  rw [search_length, search_length] at hlen
  norm_num at hlen
  omega

/-- C4 (amended): when the query or a stored vector has zero magnitude, the
unguarded `cosineSimilarity` inside `FAISS.search` evaluates `0/0`, i.e. `NaN`
(`none`) — not `0`; the guarded inline similarity of the `/search` endpoint
returns exactly `0`.  In both cases the entry is kept, never dropped: for
`k ≥ index size` every indexed id appears in the search output. -/
theorem zero_magnitude_score_behavior (q v : List ℝ) (idx : List IndexEntry)
    (k : Int) (h : magnitude q = 0 ∨ magnitude v = 0)
    (hk : (idx.length : Int) ≤ k) :
    cosineSimilarity q v = none
    ∧ cosineSimilarityGuarded q v = 0
    ∧ ∀ e ∈ idx, ∃ r ∈ FAISS.search idx q k, r.docId = e.docId := by
  refine ⟨cosineSimilarity_eq_none h,
    by rw [cosineSimilarityGuarded, if_pos h], fun e he => ?_⟩
  have hperm := search_perm_of_le idx q k hk
  refine ⟨{ docId := e.docId, score := cosineSimilarity q e.vector }, ?_, rfl⟩
  rw [hperm.mem_iff]
  exact List.mem_map.mpr ⟨e, he, rfl⟩

/-- Witness for the C4 theorem at a zero query vector against a one-entry
index. -/
theorem zero_magnitude_score_behavior_witness :
    (magnitude [0, 0] = 0 ∨ magnitude [1, 0] = 0)
    ∧ ((([⟨[1, 0], 1⟩] : List IndexEntry).length : Int) ≤ 5)
    ∧ cosineSimilarity [0, 0] [1, 0] = none
    ∧ cosineSimilarityGuarded [0, 0] [1, 0] = 0 := by
  have hm00 : magnitude [0, 0] = 0 := by
    have hs : sumSq [0, 0] = 0 := by norm_num [sumSq]
    rw [magnitude, hs, Real.sqrt_zero]
  have h := zero_magnitude_score_behavior [0, 0] [1, 0] [⟨[1, 0], 1⟩] 5
    (Or.inl hm00) (by norm_num)
  exact ⟨Or.inl hm00, by norm_num, h.1, h.2.1⟩

/-- C4 counterexample: `FAISS.search` on a one-entry index with the zero query
vector returns the entry with score `NaN` (`none`), which is not the claimed
score `0`. -/
theorem search_zero_vector_gives_nan :
    FAISS.search [⟨[1, 0], 1⟩] [0, 0] 5 = [{ docId := 1, score := none }]
    ∧ (none : Option ℝ) ≠ some 0 := by
  have hm00 : magnitude [0, 0] = 0 := by
    have hs : sumSq [0, 0] = 0 := by norm_num [sumSq]
    rw [magnitude, hs, Real.sqrt_zero]
  have hcos : cosineSimilarity [0, 0] [1, 0] = none :=
    cosineSimilarity_eq_none (Or.inl hm00)
  constructor
  · simp [FAISS.search, jsSortBy, insertLE, jsSlice, hcos]
  · simp

/-- C5 (amended): search on an empty index returns the empty sequence for
every `k`, and search with `k = 0` returns the empty sequence; but for
negative `k`, `slice(0, k)` counts from the end of the sorted results, so a
non-empty index returns the first `max(size + k, 0)` results — not always the
empty sequence (see the counterexample). -/
theorem search_empty_index_and_k_zero (idx : List IndexEntry) (q : List ℝ)
    (k : Int) :
    FAISS.search [] q k = []
    ∧ FAISS.search idx q 0 = []
    ∧ (FAISS.search idx q k).length =
        if idx.length = 0 then 0
        else min (if k < 0 then ((idx.length : Int) + k).toNat else k.toNat)
          idx.length := by
  refine ⟨by simp [FAISS.search], ?_, search_length idx q k⟩
  by_cases h : idx.length = 0
  · simp [FAISS.search, h]
  · simp only [FAISS.search, if_neg h]
    simp [jsSlice]

/-- C5 counterexample: on a two-entry index, `search(q, -1)` returns one
result (`slice(0, -1)` drops only the last element), not the empty sequence
claimed for `k ≤ 0`. -/
theorem search_negative_k_not_empty :
    FAISS.search [⟨[1, 0], 1⟩, ⟨[0, 1], 2⟩] [1, 0] (-1) ≠ [] := by
  intro hcontra
  have hlen := congrArg List.length hcontra
  rw [search_length] at hlen
  norm_num at hlen

/-- C2: ingesting the same content twice (with the embedding succeeding, the
content not yet stored, and the fresh id not yet indexed — the state every
reachable server run is in) creates exactly one Document and one index entry;
the second call reports `Document already exists.` and mutates nothing. -/
theorem ingest_twice_idempotent (embed : String → Option (List ℝ))
    (ser : List ℝ → List ℝ) (s : ServerState) (content : String) (v : List ℝ)
    (hc : content ≠ "") (he : embed content = some v)
    (habs : ∀ r ∈ s.store, r.content ≠ content)
    (hfa : ∀ e ∈ s.faiss, e.docId ≠ s.nextId) :
    (addEndpoint embed ser s content).1 = .added s.nextId
    ∧ (addEndpoint embed ser (addEndpoint embed ser s content).2 content).1
        = .alreadyExists
    ∧ (addEndpoint embed ser (addEndpoint embed ser s content).2 content).2
        = (addEndpoint embed ser s content).2
    ∧ ((addEndpoint embed ser s content).2.store.countP
        fun r => r.content == content) = 1
    ∧ ((addEndpoint embed ser s content).2.faiss.countP
        fun e => e.docId == s.nextId) = 1 := by
  have hany : (s.store.any fun r => r.content == content) = false := by
    rw [List.any_eq_false]
    intro r hr
    simpa using habs r hr
  have h1 : addEndpoint embed ser s content
      = (.added s.nextId,
        { store := s.store ++
            [{ id := s.nextId, content := content, vector := ser v }],
          faiss := FAISS.add s.faiss v s.nextId,
          nextId := s.nextId + 1 }) := by
    simp only [addEndpoint, if_neg hc, he, hany, Bool.false_eq_true, if_false]
  have hany2 : ((s.store ++
      [({ id := s.nextId, content := content, vector := ser v } : DocRow)]).any
        fun r => r.content == content) = true := by
    simp [List.any_append]
  have h2 : addEndpoint embed ser
      { store := s.store ++
          [({ id := s.nextId, content := content, vector := ser v } : DocRow)],
        faiss := FAISS.add s.faiss v s.nextId,
        nextId := s.nextId + 1 } content
      = (.alreadyExists,
        { store := s.store ++
            [({ id := s.nextId, content := content, vector := ser v } : DocRow)],
          faiss := FAISS.add s.faiss v s.nextId,
          nextId := s.nextId + 1 }) := by
    simp only [addEndpoint, if_neg hc, he, hany2, if_true]
  have hcount0 : (s.store.countP fun r => r.content == content) = 0 := by
    rw [List.countP_eq_zero]
    intro r hr
    simpa using habs r hr
  have hfcount0 : (s.faiss.countP fun e => e.docId == s.nextId) = 0 := by
    rw [List.countP_eq_zero]
    intro e hee
    simpa using hfa e hee
  rw [h1]
  refine ⟨rfl, ?_, ?_, ?_, ?_⟩
  · rw [h2]
  · rw [h2]
  · simp [List.countP_append, hcount0, List.countP_cons]
  · simp [FAISS.add, List.countP_append, hfcount0, List.countP_cons]

/-- Witness for the C2 theorem: a fresh empty server state and one content
string. -/
theorem ingest_twice_idempotent_witness :
    ("cats" : String) ≠ ""
    ∧ (fun _ : String => some ([1, 0] : List ℝ)) "cats" = some [1, 0]
    ∧ (addEndpoint (fun _ => some [1, 0]) (fun w => w)
        { store := [], faiss := [], nextId := 1 } "cats").1 = .added 1
    ∧ (addEndpoint (fun _ => some [1, 0]) (fun w => w)
        (addEndpoint (fun _ => some [1, 0]) (fun w => w)
          { store := [], faiss := [], nextId := 1 } "cats").2 "cats").1
        = .alreadyExists
    ∧ ((addEndpoint (fun _ => some [1, 0]) (fun w => w)
        { store := [], faiss := [], nextId := 1 } "cats").2.store.countP
          fun r => r.content == "cats") = 1 := by
  have h := ingest_twice_idempotent (fun _ => some [1, 0]) (fun w => w)
    { store := [], faiss := [], nextId := 1 } "cats" [1, 0]
    (by simp) rfl (by simp) (by simp)
  exact ⟨by simp, rfl, h.1, h.2.1, h.2.2.2.1⟩

/-- C6: if the embedding provider fails during `/add` (for non-empty content),
the endpoint responds with a server error and the state — store and index —
is completely unchanged. -/
theorem ingest_provider_failure_writes_nothing (embed : String → Option (List ℝ))
    (ser : List ℝ → List ℝ) (s : ServerState) (content : String)
    (hc : content ≠ "") (he : embed content = none) :
    addEndpoint embed ser s content = (.serverError, s) := by
  simp only [addEndpoint, if_neg hc, he]

/-- Witness for the C6 theorem: a failing provider on a fresh state. -/
theorem ingest_provider_failure_witness :
    ("new text" : String) ≠ ""
    ∧ (fun _ : String => (none : Option (List ℝ))) "new text" = none
    ∧ addEndpoint (fun _ => none) (fun w => w)
        { store := [], faiss := [], nextId := 1 } "new text"
      = (.serverError, { store := [], faiss := [], nextId := 1 }) := by
  exact ⟨by simp, rfl,
    ingest_provider_failure_writes_nothing (fun _ => none) (fun w => w)
      { store := [], faiss := [], nextId := 1 } "new text" (by simp) rfl⟩

/-- C9 (amended): `/add` rejects empty (falsy) content with a 400 and no state
change, for every provider and state — no embedding is consulted; `/search`
likewise rejects an empty query with a 400 before any embedding.  Blank
whitespace-only content, however, is truthy and is NOT rejected (see the
counterexample). -/
theorem empty_content_and_query_rejected (embed : String → Option (List ℝ))
    (ser : List ℝ → List ℝ) (s : ServerState)
    (embed2 : String → Option (List ℝ)) (provider : Option String) (k : Int) :
    addEndpoint embed ser s "" = (.badRequest, s)
    ∧ searchEndpoint s embed2 provider "" k = .badRequest :=
  ⟨by simp [addEndpoint], by simp [searchEndpoint]⟩

/-- C9 counterexample: whitespace-only content `" "` is truthy in JavaScript,
so `/add` does not reject it: a Document is created and indexed. -/
theorem blank_content_not_rejected :
    addEndpoint (fun _ => some [1]) (fun w => w)
        { store := [], faiss := [], nextId := 1 } " "
      = (.added 1,
        { store := [{ id := 1, content := " ", vector := [1] }],
          faiss := [{ vector := [1], docId := 1 }],
          nextId := 2 }) := by
  have h : (" " : String) ≠ "" := by simp
  simp [addEndpoint, h, FAISS.add]

/-- C10: the `/search` endpoint of server.js reads and scores every row of the
`documents` table and never consults the in-memory FAISS index: its outcome is
identical for any two states sharing a store, its ranked results are exactly
the sorted, sliced scoring of every store row, and (for `k ≥ store size`)
every stored Document appears in the results even if absent from the index. -/
theorem search_endpoint_ignores_index (store : List DocRow)
    (f1 f2 : List IndexEntry) (n1 n2 : Nat) (embed : String → Option (List ℝ))
    (provider : Option String) (query : String) (qv : List ℝ) (k : Int) :
    searchEndpoint { store := store, faiss := f1, nextId := n1 }
        embed provider query k
      = searchEndpoint { store := store, faiss := f2, nextId := n2 }
          embed provider query k
    ∧ searchEndpointResults { store := store, faiss := f1, nextId := n1 } qv k
      = jsSlice k (jsSortBy scoredLE (store.map fun row =>
          { docId := row.id, content := row.content,
            score := cosineSimilarityGuarded qv row.vector }))
    ∧ ((store.length : Int) ≤ k → ∀ row ∈ store,
        ∃ r ∈ searchEndpointResults
            { store := store, faiss := f1, nextId := n1 } qv k,
          r.docId = row.id) := by
  refine ⟨rfl, rfl, fun hk row hrow => ?_⟩
  have hperm := jsSlice_jsSortBy_perm scoredLE (store.map fun row =>
    { docId := row.id, content := row.content,
      score := cosineSimilarityGuarded qv row.vector }) k
    (by rw [List.length_map]; exact hk)
  refine ⟨ScoredDoc.mk row.id row.content
    (cosineSimilarityGuarded qv row.vector), ?_, rfl⟩
  show _ ∈ searchEndpointResults _ qv k
  rw [searchEndpointResults, hperm.mem_iff]
  exact List.mem_map.mpr ⟨row, hrow, rfl⟩

/-- Witness for the C10 theorem: a one-row store, `k = 5`. -/
theorem search_endpoint_ignores_index_witness :
    ((([(⟨1, "a", [1, 0]⟩ : DocRow)] : List DocRow).length : Int) ≤ 5)
    ∧ (∀ row ∈ ([⟨1, "a", [1, 0]⟩] : List DocRow),
        ∃ r ∈ searchEndpointResults
            { store := [⟨1, "a", [1, 0]⟩], faiss := [], nextId := 2 } [1, 0] 5,
          r.docId = row.id) := by
  refine ⟨by norm_num, fun row hrow => ?_⟩
  exact (search_endpoint_ignores_index [⟨1, "a", [1, 0]⟩] [] [⟨[0, 1], 7⟩] 2 3
    (fun _ => none) none "q" [1, 0] 5).2.2 (by norm_num) row hrow

theorem searchEndpoint_eq (s : ServerState) (embed : String → Option (List ℝ))
    (provider : Option String) (query : String) (qv : List ℝ) (k : Int)
    (hq : query ≠ "") (he : embed query = some qv) :
    searchEndpoint s embed provider query k =
      match Embed.getAnswer (mkSearchPrompt query (searchEndpointResults s qv k))
          "undefined" provider with
      | .error _ => .noResponse
      | .ok answer =>
        .ok (mkSearchPrompt query (searchEndpointResults s qv k))
          (searchEndpointResults s qv k) answer := by
  rw [searchEndpoint, if_neg hq, he]

set_option maxRecDepth 8000 in
/-- C8 evaluation at the failing input: the embed.js `getAnswer` catch block
(lines 177-179) only logs the provider error and does not rethrow, so on
provider failure it resolves with `undefined`; `/search` (server.js) then
responds 200 with `answer: undefined` instead of surfacing a server error.
The embedArray.js variant rethrows, surfacing the failure as claimed. -/
theorem answer_provider_failure_not_surfaced :
    Embed.getAnswer "1. cats are mammals" "undefined" none = .ok none
    ∧ searchEndpoint
        { store := [⟨1, "cats are mammals", [1, 0]⟩], faiss := [], nextId := 2 }
        (fun _ => some [1, 0]) none "about cats" 5
      = .ok "Query: about cats\nDocuments:\n1. cats are mammals"
          [⟨1, "cats are mammals", 1⟩] none
    ∧ EmbedArray.getAnswer "1. cats are mammals" "about cats" none
      = .error "Error generating answer from OpenAI" := by
  have hm : magnitude [1, 0] = 1 := by
    have hs : sumSq [1, 0] = 1 := by norm_num [sumSq]
    rw [magnitude, hs, Real.sqrt_one]
  have hscore : cosineSimilarityGuarded [1, 0] [1, 0] = 1 := by
    rw [cosineSimilarityGuarded, if_neg (by rw [hm]; norm_num), hm]
    norm_num [dotProduct]
  have hres : searchEndpointResults
      { store := [⟨1, "cats are mammals", [1, 0]⟩], faiss := [], nextId := 2 }
      [1, 0] 5 = [⟨1, "cats are mammals", 1⟩] := by
    simp [searchEndpointResults, jsSortBy, insertLE, jsSlice, hscore]
  refine ⟨?_, ?_, ?_⟩
  · rw [Embed.getAnswer, if_neg (by decide)]
  · rw [searchEndpoint_eq _ _ _ _ [1, 0] 5 (by decide) rfl, hres]
    have hprompt : mkSearchPrompt "about cats" [⟨1, "cats are mammals", 1⟩]
        = "Query: about cats\nDocuments:\n1. cats are mammals" := by decide
    rw [hprompt, Embed.getAnswer, if_neg (by decide)]
  · rw [EmbedArray.getAnswer, if_neg (by decide)]

theorem rne_intCast (n : ℤ) : rne (n : ℚ) = n := by
  rw [rne, Int.floor_intCast, sub_self]
  norm_num

theorem int_log_eq_of_bounds {q : ℚ} {e : ℤ} (hq : 0 < q)
    (h1 : (2 : ℚ) ^ e ≤ q) (h2 : q < (2 : ℚ) ^ (e + 1)) : Int.log 2 q = e := by
  have hb : (1 : ℕ) < 2 := by norm_num
  have hle : e ≤ Int.log 2 q := by
    refine (Int.zpow_le_iff_le_log hb hq).mp ?_
    exact_mod_cast h1
  have hlt : Int.log 2 q < e + 1 := by
    refine (Int.lt_zpow_iff_log_lt hb hq).mp ?_
    exact_mod_cast h2
  omega

theorem round32_eq_of_rep {q : ℚ} (h : Float32Rep q) : round32 q = q := by
  rcases h with h0 | ⟨m, e, hm, he, _, hq⟩
  · rw [h0, round32, if_pos rfl]
  by_cases hm0 : m = 0
  · subst hm0
    rw [hq]
    simp [round32]
  have hqne : q ≠ 0 := by
    rw [hq]
    exact mul_ne_zero (Int.cast_ne_zero.mpr hm0)
      (zpow_ne_zero _ (by norm_num))
  have habs : |q| = |(m : ℚ)| * 2 ^ e := by
    rw [hq, abs_mul, abs_of_pos (by positivity : (0 : ℚ) < 2 ^ e)]
  have hmq : |(m : ℚ)| < 2 ^ 24 := by
    rw [← Int.cast_abs]
    exact_mod_cast hm
  have hlog : Int.log 2 |q| ≤ e + 23 := by
    have hlt : |q| < (2 : ℚ) ^ (e + 24) := by
      rw [habs]
      calc |(m : ℚ)| * 2 ^ e < 2 ^ 24 * 2 ^ e :=
            mul_lt_mul_of_pos_right hmq (by positivity)
        _ = (2 : ℚ) ^ (e + 24) := by
            rw [← zpow_natCast (2 : ℚ) 24, ← zpow_add₀ (by norm_num : (2 : ℚ) ≠ 0)]
            ring_nf
    have hpos : 0 < |q| := abs_pos.mpr hqne
    have := (Int.lt_zpow_iff_log_lt (by norm_num : (1 : ℕ) < 2) hpos).mp
      (by exact_mod_cast hlt)
    omega
  have hfe : fexp q ≤ e := by
    rw [fexp]
    omega
  have hd : (0 : ℤ) ≤ e - fexp q := by omega
  have hqd : q / (2 : ℚ) ^ fexp q = ((m * 2 ^ (e - fexp q).toNat : ℤ) : ℚ) := by
    rw [div_eq_iff (zpow_ne_zero _ (by norm_num : (2 : ℚ) ≠ 0))]
    push_cast
    rw [mul_assoc, ← zpow_natCast (2 : ℚ) (e - fexp q).toNat,
      ← zpow_add₀ (by norm_num : (2 : ℚ) ≠ 0)]
    conv_lhs => rw [hq]
    congr 2
    omega
  rw [round32, if_neg hqne, hqd, rne_intCast]
  push_cast
  rw [mul_assoc, ← zpow_natCast (2 : ℚ) (e - fexp q).toNat,
    ← zpow_add₀ (by norm_num : (2 : ℚ) ≠ 0)]
  conv_rhs => rw [hq]
  congr 2
  omega

/-- C7 (amended): the store round-trip yields the componentwise float32
rounding of the vector (definitionally), and is exact for every vector all of
whose components are exactly representable as finite float32 values.  It is
NOT exact for general float64 embedding-provider output (see the
counterexample: the float64 value closest to 0.1 moves). -/
theorem storeRoundTrip_exact_of_rep (v : List ℚ) (h : ∀ q ∈ v, Float32Rep q) :
    storeRoundTrip v = v ∧ storeRoundTrip v = v.map round32 := by
  refine ⟨?_, rfl⟩
  show v.map round32 = v
  have hcongr : v.map round32 = v.map id :=
    List.map_congr_left fun q hq => round32_eq_of_rep (h q hq)
  rw [hcongr, List.map_id]

/-- Witness for the C7 theorem: the float32-representable vector `[1/2]`
round-trips exactly. -/
theorem storeRoundTrip_exact_witness :
    (∀ q ∈ [(1 : ℚ) / 2], Float32Rep q)
    ∧ storeRoundTrip [(1 : ℚ) / 2] = [(1 : ℚ) / 2] := by
  have hrep : ∀ q ∈ [(1 : ℚ) / 2], Float32Rep q := by
    intro q hq
    rw [List.mem_singleton] at hq
    subst hq
    refine Or.inr ⟨1, -1, by norm_num, by norm_num, by norm_num, ?_⟩
    norm_num
  exact ⟨hrep, (storeRoundTrip_exact_of_rep _ hrep).1⟩

/-- C7 counterexample: the float64 value closest to 0.1 — exactly
`3602879701896397 / 2^55`, a typical embedding coordinate — does not survive
the `Float32Array` round-trip: it is rounded to the nearest float32,
`13421773 / 2^27`. -/
theorem storeRoundTrip_not_exact :
    storeRoundTrip [(3602879701896397 : ℚ) / 2 ^ 55]
      ≠ [(3602879701896397 : ℚ) / 2 ^ 55] := by
  have hqpos : (0 : ℚ) < 3602879701896397 / 2 ^ 55 := by norm_num
  have habs : |(3602879701896397 : ℚ) / 2 ^ 55| = 3602879701896397 / 2 ^ 55 :=
    abs_of_pos hqpos
  have hlogq : Int.log 2 |(3602879701896397 : ℚ) / 2 ^ 55| = -4 := by
    rw [habs]
    refine int_log_eq_of_bounds hqpos ?_ ?_
    · show (2 : ℚ) ^ (-4 : ℤ) ≤ _
      rw [zpow_neg]
      norm_num
    · show _ < (2 : ℚ) ^ (-4 + 1 : ℤ)
      rw [show (-4 + 1 : ℤ) = -3 by norm_num, zpow_neg]
      norm_num
  have hfexp : fexp ((3602879701896397 : ℚ) / 2 ^ 55) = -27 := by
    rw [fexp, hlogq]
    norm_num
  have harg : (3602879701896397 : ℚ) / 2 ^ 55 / (2 : ℚ) ^ (-27 : ℤ)
      = 3602879701896397 / 2 ^ 28 := by
    rw [zpow_neg]
    norm_num
  have hfloor : ⌊(3602879701896397 : ℚ) / 2 ^ 28⌋ = 13421772 := by
    rw [Int.floor_eq_iff]
    constructor <;> norm_num
  have hrne : rne ((3602879701896397 : ℚ) / 2 ^ 28) = 13421773 := by
    rw [rne, hfloor]
    norm_num
  have hr32 : round32 ((3602879701896397 : ℚ) / 2 ^ 55) = 13421773 / 2 ^ 27 := by
    rw [round32, if_neg (by norm_num), hfexp, harg, hrne]
    rw [zpow_neg]
    norm_num
  intro hcontra
  have hhead : round32 ((3602879701896397 : ℚ) / 2 ^ 55)
      = (3602879701896397 : ℚ) / 2 ^ 55 := by
    have := congrArg (fun l => l.headI) hcontra
    simpa [storeRoundTrip, serializeVector, deserializeVector] using this
  rw [hr32] at hhead
  norm_num at hhead
